import Mathlib

set_option maxRecDepth 8000

/-!
Shallow embedding of the feed aggregator in src/main.py.

Strings are handled as lists of characters (String.data); the helpers that
model Python standard-library behaviour (str.strip, str.replace,
datetime.fromisoformat, datetime.strptime on the four fixed formats,
urllib.parse.urljoin) carry doc comments stating the modelled scope.
-/

/-- Characters treated as whitespace by Python str.strip (ASCII subset:
space, tab, newline, carriage return, vertical tab, form feed). -/
def isSpaceChar (c : Char) : Bool :=
  c.toNat == 32 || c.toNat == 9 || c.toNat == 10 || c.toNat == 13 ||
  c.toNat == 11 || c.toNat == 12

/-- Model of Python str.strip(): drop leading and trailing whitespace. -/
def pyStrip (cs : List Char) : List Char :=
  ((cs.dropWhile isSpaceChar).reverse.dropWhile isSpaceChar).reverse

/-- Model of Python str.strip() on Lean strings. -/
def pyStripStr (s : String) : String :=
  String.mk (pyStrip s.data)

/-- Model of the call cleaned.replace("Z", "+00:00") in parse_date
(src/main.py line 111): every occurrence of the single character Z is
replaced by the six characters +00:00. -/
def replaceZ : List Char → List Char
  | [] => []
  | c :: rest =>
    if c == 'Z' then '+' :: '0' :: '0' :: ':' :: '0' :: '0' :: replaceZ rest
    else c :: replaceZ rest

/-- Decimal digit test on characters. -/
def isDigitChar (c : Char) : Bool :=
  48 ≤ c.toNat && c.toNat ≤ 57

/-- Numeric value of a decimal digit character. -/
def digitVal (c : Char) : Nat :=
  c.toNat - 48

/-- Decimal digit character for a value below ten. -/
def digitChar (n : Nat) : Char :=
  Char.ofNat (48 + n)

/-- ASCII lower-casing of one character, modelling the case-insensitive
matching that Python strptime performs (re.IGNORECASE). -/
def lowerChar (c : Char) : Char :=
  if 65 ≤ c.toNat ∧ c.toNat ≤ 90 then Char.ofNat (c.toNat + 32) else c

/-- Prefix test on character lists (case sensitive). -/
def startsList : List Char → List Char → Bool
  | [], _ => true
  | _ :: _, [] => false
  | a :: as, b :: bs => a == b && startsList as bs

/-- Case-insensitive prefix removal: if pat is a prefix of the target up to
ASCII case, return the remainder. -/
def dropStartCI : List Char → List Char → Option (List Char)
  | [], rest => some rest
  | _ :: _, [] => none
  | p :: ps, c :: cs => if lowerChar p == lowerChar c then dropStartCI ps cs else none

/-- Substring test (Python operator in on str), on character lists. -/
def containsSub (pat : List Char) : List Char → Bool
  | [] => startsList pat []
  | c :: rest => startsList pat (c :: rest) || containsSub pat rest

/-- Exactly two decimal digits, returning their value and the remainder. -/
def parse2 : List Char → Option (Nat × List Char)
  | c1 :: c2 :: rest =>
    if isDigitChar c1 ∧ isDigitChar c2 then
      some (digitVal c1 * 10 + digitVal c2, rest)
    else none
  | _ => none

/-- Exactly four decimal digits, returning their value and the remainder. -/
def parse4 : List Char → Option (Nat × List Char)
  | c1 :: c2 :: c3 :: c4 :: rest =>
    if isDigitChar c1 ∧ isDigitChar c2 ∧ isDigitChar c3 ∧ isDigitChar c4 then
      some (((digitVal c1 * 10 + digitVal c2) * 10 + digitVal c3) * 10 + digitVal c4, rest)
    else none
  | _ => none

/-- Model of the numeric field regexes of Python strptime (for the
directives d, m, H, M, S): a two-digit match with value in [lo, hi] is
preferred, otherwise a single digit with value at least lo is taken. -/
def parse2or1 (lo hi : Nat) : List Char → Option (Nat × List Char)
  | c1 :: c2 :: rest =>
    if isDigitChar c1 then
      if isDigitChar c2 ∧ lo ≤ digitVal c1 * 10 + digitVal c2 ∧ digitVal c1 * 10 + digitVal c2 ≤ hi then
        some (digitVal c1 * 10 + digitVal c2, rest)
      else if lo ≤ digitVal c1 then some (digitVal c1, c2 :: rest)
      else none
    else none
  | [c1] => if isDigitChar c1 ∧ lo ≤ digitVal c1 then some (digitVal c1, []) else none
  | [] => none

/-- Model of a whitespace run in a strptime format (matched as one or more
whitespace characters). -/
def skipWs1 : List Char → Option (List Char)
  | c :: rest => if isSpaceChar c then some (rest.dropWhile isSpaceChar) else none
  | [] => none

/-- Two-digit zero-padded decimal rendering (strftime directives d, m, H, M, S). -/
def pad2 (n : Nat) : List Char :=
  digitChar (n / 10) :: digitChar (n % 10) :: []

/-- Four-digit zero-padded decimal rendering (strftime directive Y,
for years with four digits). -/
def pad4 (n : Nat) : List Char :=
  digitChar (n / 1000) :: digitChar (n / 100 % 10) :: digitChar (n / 10 % 10) :: digitChar (n % 10) :: []

/-- Full English month name (strptime/strftime directive B), lower-case
reference spelling; matching is case-insensitive. -/
def monthFullName (m : Nat) : List Char :=
  match m with
  | 1 => "January".data
  | 2 => "February".data
  | 3 => "March".data
  | 4 => "April".data
  | 5 => "May".data
  | 6 => "June".data
  | 7 => "July".data
  | 8 => "August".data
  | 9 => "September".data
  | 10 => "October".data
  | 11 => "November".data
  | 12 => "December".data
  | _ => []

/-- Abbreviated English month name (strptime/strftime directive b). -/
def monthAbbrName (m : Nat) : List Char :=
  match m with
  | 1 => "Jan".data
  | 2 => "Feb".data
  | 3 => "Mar".data
  | 4 => "Apr".data
  | 5 => "May".data
  | 6 => "Jun".data
  | 7 => "Jul".data
  | 8 => "Aug".data
  | 9 => "Sep".data
  | 10 => "Oct".data
  | 11 => "Nov".data
  | 12 => "Dec".data
  | _ => []

/-- Table of full month names with their numbers. -/
def monthsFull : List (Nat × List Char) :=
  [(1, monthFullName 1), (2, monthFullName 2), (3, monthFullName 3),
   (4, monthFullName 4), (5, monthFullName 5), (6, monthFullName 6),
   (7, monthFullName 7), (8, monthFullName 8), (9, monthFullName 9),
   (10, monthFullName 10), (11, monthFullName 11), (12, monthFullName 12)]

/-- Table of abbreviated month names with their numbers. -/
def monthsAbbr : List (Nat × List Char) :=
  [(1, monthAbbrName 1), (2, monthAbbrName 2), (3, monthAbbrName 3),
   (4, monthAbbrName 4), (5, monthAbbrName 5), (6, monthAbbrName 6),
   (7, monthAbbrName 7), (8, monthAbbrName 8), (9, monthAbbrName 9),
   (10, monthAbbrName 10), (11, monthAbbrName 11), (12, monthAbbrName 12)]

/-- Match one month name from a table as a case-insensitive prefix;
no month name is a (case-insensitive) prefix of another, so the table
order is immaterial, as it is for the regex Python strptime builds. -/
def matchMonthIn : List (Nat × List Char) → List Char → Option (Nat × List Char)
  | [], _ => none
  | (k, nm) :: rest, cs =>
    match dropStartCI nm cs with
    | some r => some (k, r)
    | none => matchMonthIn rest cs

/-- Naive datetime value as produced by the Python datetime constructor:
calendar fields plus an optional fixed UTC offset in minutes (tz = none
models a naive datetime, tz = some 0 models timezone.utc). -/
structure PyDateTime where
  year : Nat
  month : Nat
  day : Nat
  hour : Nat
  minute : Nat
  second : Nat
  tz : Option Int
deriving DecidableEq, Repr

/-- Leap-year test of the Gregorian calendar. -/
def isLeapYear (y : Nat) : Bool :=
  y % 4 == 0 && (y % 100 != 0 || y % 400 == 0)

/-- Number of days in a month. -/
def daysInMonth (y m : Nat) : Nat :=
  if m == 2 then (if isLeapYear y then 29 else 28)
  else if m == 4 || m == 6 || m == 9 || m == 11 then 30
  else 31

/-- Date validation performed by the Python datetime constructor
(MINYEAR = 1, MAXYEAR = 9999). -/
def validDate (y m d : Nat) : Bool :=
  1 ≤ y && y ≤ 9999 && 1 ≤ m && m ≤ 12 && 1 ≤ d && d ≤ daysInMonth y m

/-- Model of the Python datetime constructor: validates all fields and
returns none where Python raises ValueError. -/
def datetime? (y m d h mi s : Nat) (tz : Option Int) : Option PyDateTime :=
  if validDate y m d ∧ h ≤ 23 ∧ mi ≤ 59 ∧ s ≤ 59 then
    some ⟨y, m, d, h, mi, s, tz⟩
  else none

/-- Model of datetime.strptime with format "%B %d, %Y" (long month name,
day, comma, year), including the constructor validation; the whole input
must be consumed. -/
def strptimeBdY (cs : List Char) : Option PyDateTime :=
  match matchMonthIn monthsFull cs with
  | none => none
  | some (m, r1) =>
    match skipWs1 r1 with
    | none => none
    | some r2 =>
      match parse2or1 1 31 r2 with
      | none => none
      | some (d, r3) =>
        match r3 with
        | ',' :: r4 =>
          match skipWs1 r4 with
          | none => none
          | some r5 =>
            match parse4 r5 with
            | some (y, []) => datetime? y m d 0 0 0 none
            | _ => none
        | _ => none

/-- Model of datetime.strptime with format "%d %b %Y" (day, abbreviated
month name, year). -/
def strptimeDbY (cs : List Char) : Option PyDateTime :=
  match parse2or1 1 31 cs with
  | none => none
  | some (d, r1) =>
    match skipWs1 r1 with
    | none => none
    | some r2 =>
      match matchMonthIn monthsAbbr r2 with
      | none => none
      | some (m, r3) =>
        match skipWs1 r3 with
        | none => none
        | some r4 =>
          match parse4 r4 with
          | some (y, []) => datetime? y m d 0 0 0 none
          | _ => none

/-- Model of datetime.strptime with format "%Y-%m-%d" (plain ISO date;
the year directive matches exactly four digits). -/
def strptimeYmd (cs : List Char) : Option PyDateTime :=
  match parse4 cs with
  | some (y, '-' :: r1) =>
    match parse2or1 1 12 r1 with
    | some (m, '-' :: r2) =>
      match parse2or1 1 31 r2 with
      | some (d, []) => datetime? y m d 0 0 0 none
      | _ => none
    | _ => none
  | _ => none

/-- Model of datetime.strptime with format "%Y-%m-%dT%H:%M:%S" (ISO date
and time without offset); the literal T is matched case-insensitively as
strptime compiles its regex with IGNORECASE. -/
def strptimeYmdHMS (cs : List Char) : Option PyDateTime :=
  match parse4 cs with
  | some (y, '-' :: r1) =>
    match parse2or1 1 12 r1 with
    | some (m, '-' :: r2) =>
      match parse2or1 1 31 r2 with
      | some (d, t :: r3) =>
        if lowerChar t == 't' then
          match parse2or1 0 23 r3 with
          | some (h, ':' :: r4) =>
            match parse2or1 0 59 r4 with
            | some (mi, ':' :: r5) =>
              match parse2or1 0 61 r5 with
              | some (s, []) => datetime? y m d h mi s none
              | _ => none
            | _ => none
          | _ => none
        else none
      | _ => none
    | _ => none
  | _ => none

/-- Time-of-day part of datetime.fromisoformat (Python < 3.11 behaviour,
matching the manual Z replacement in parse_date): HH, HH:MM or HH:MM:SS
with exactly two digits per field; fractional seconds are not modelled
(no caller of parse_date in this repository produces them). -/
def fromisoTimeFields : List Char → Option (Nat × Nat × Nat × List Char)
  | cs =>
    match parse2 cs with
    | none => none
    | some (h, rest) =>
      match rest with
      | ':' :: r2 =>
        match parse2 r2 with
        | none => none
        | some (mi, r3) =>
          match r3 with
          | ':' :: r4 =>
            match parse2 r4 with
            | none => none
            | some (s, r5) => some (h, mi, s, r5)
          | _ => some (h, mi, 0, r3)
      | _ => some (h, 0, 0, rest)

/-- Offset part of datetime.fromisoformat: HH:MM after a sign, in minutes;
the Python timezone constructor requires the magnitude to stay below
24 hours (offsets with a seconds field are not modelled, nothing in this
repository produces them). -/
def fromisoOffset (cs : List Char) : Option Nat :=
  match parse2 cs with
  | some (oh, ':' :: r2) =>
    match parse2 r2 with
    | some (om, []) => if oh * 60 + om < 1440 then some (oh * 60 + om) else none
    | _ => none
  | _ => none

/-- Model of datetime.fromisoformat (Python < 3.11, the strict form the
code targets given its manual Z replacement): YYYY-MM-DD, optionally
followed by one arbitrary separator character, a time of day, and a
signed HH:MM offset; validation as in the datetime constructor. -/
def fromisoChars (cs : List Char) : Option PyDateTime :=
  match parse4 cs with
  | some (y, '-' :: r1) =>
    match parse2 r1 with
    | some (mo, '-' :: r2) =>
      match parse2 r2 with
      | some (d, r3) =>
        match r3 with
        | [] => datetime? y mo d 0 0 0 none
        | _ :: r4 =>
          match fromisoTimeFields r4 with
          | none => none
          | some (h, mi, s, r5) =>
            match r5 with
            | [] => datetime? y mo d h mi s none
            | '+' :: r6 =>
              match fromisoOffset r6 with
              | some off => datetime? y mo d h mi s (some (off : Int))
              | none => none
            | '-' :: r6 =>
              match fromisoOffset r6 with
              | some off => datetime? y mo d h mi s (some (-(off : Int)))
              | none => none
            | _ => none
      | _ => none
    | _ => none
  | _ => none

/-- Split at the first colon, modelling cleaned.split(":", 1): the second
component is some tail exactly when the list contains a colon. -/
def splitFirstColon : List Char → List Char × Option (List Char)
  | [] => ([], none)
  | c :: t =>
    if c == ':' then ([], some t)
    else ((c :: (splitFirstColon t).1, (splitFirstColon t).2))

/-- Model of lines 108-110 of src/main.py: when the cleaned string
contains a colon and does not start with the two characters 20, the text
up to the first colon is dropped and the remainder stripped. -/
def discardLabel (cs : List Char) : List Char :=
  if cs.any (fun c => c == ':') && !(startsList ['2', '0'] cs) then
    match (splitFirstColon cs).2 with
    | some rest => pyStrip rest
    | none => pyStrip (splitFirstColon cs).1
  else cs

/-- Fallback chain of parse_date (src/main.py lines 116-121): the four
strptime formats are tried in order and the first success is stamped with
timezone.utc. -/
def tryFormats (cleaned : List Char) : Option PyDateTime :=
  match strptimeBdY cleaned with
  | some t => some { t with tz := some 0 }
  | none =>
    match strptimeDbY cleaned with
    | some t => some { t with tz := some 0 }
    | none =>
      match strptimeYmd cleaned with
      | some t => some { t with tz := some 0 }
      | none =>
        match strptimeYmdHMS cleaned with
        | some t => some { t with tz := some 0 }
        | none => none

/-- Body of parse_date (src/main.py lines 107-122) on a non-empty string:
strip, conditionally discard a label prefix, replace Z, try
datetime.fromisoformat (defaulting a naive result to UTC), then the
strptime fallbacks. -/
def parseDateChars (cs : List Char) : Option PyDateTime :=
  match fromisoChars (replaceZ (discardLabel (pyStrip cs))) with
  | some parsed => some (if parsed.tz.isSome then parsed else { parsed with tz := some 0 })
  | none => tryFormats (discardLabel (pyStrip cs))

/-- Model of parse_date (src/main.py lines 103-122); a None or empty
argument is falsy in Python and yields None. -/
def parse_date (value : Option String) : Option PyDateTime :=
  match value with
  | none => none
  | some s => if s.data.isEmpty then none else parseDateChars s.data

/-- Markup element as consumed by the extraction code: its text nodes and
its attributes (the only uses are get_text and attribute lookup). -/
structure Tag where
  texts : List String
  attrs : List (String × String)
deriving DecidableEq, Repr

/-- Attribute lookup, modelling tag.get(name) of BeautifulSoup. -/
def tagGet (t : Tag) (name : String) : Option String :=
  (t.attrs.find? (fun p => p.1 == name)).map (fun p => p.2)

/-- Attribute lookup with default, modelling tag.get(name, ""). -/
def tagGetD (t : Tag) (name : String) : String :=
  match tagGet t name with
  | some v => v
  | none => ""

/-- Model of BeautifulSoup get_text(" ", strip=True): each text node is
stripped, empty results are dropped, and the remainder is joined with
single spaces. -/
def joinWithSpace : List String → String
  | [] => ""
  | [s] => s
  | s :: rest => s ++ " " ++ joinWithSpace rest

/-- Stripped non-empty text nodes of a tag. -/
def getTextParts (t : Tag) : List String :=
  (t.texts.map pyStripStr).filter (fun s => !s.data.isEmpty)

/-- Model of text_or_empty (src/main.py lines 125-127). -/
def text_or_empty (t : Option Tag) : String :=
  match t with
  | some tag => joinWithSpace (getTextParts tag)
  | none => ""

/-- Model of urllib.parse.urljoin restricted to the shapes this code
produces: an absolute URL replaces the base, an empty URL yields the
base, and a relative reference is appended to the (path-free) base URLs
used in JOURNAL_CONFIGS. -/
def urljoin (base url : String) : String :=
  if url.data.isEmpty then base
  else if startsList "http://".data url.data || startsList "https://".data url.data then url
  else base ++ url

/-- Model of the Article dataclass (src/main.py lines 26-32). -/
structure Article where
  title : String
  link : String
  summary : String
  published : Option PyDateTime
  source : String
deriving DecidableEq, Repr

/-- Model of the JournalConfig dataclass (src/main.py lines 35-41). -/
structure JournalConfig where
  name : String
  url : String
  base_url : String
  include_terms : List String
  exclude_terms : List String
deriving DecidableEq, Repr

/-- Cell entry of JOURNAL_CONFIGS (src/main.py lines 45-58). -/
def cellConfig : JournalConfig :=
  { name := "Cell"
    url := "https://www.cell.com/cell/newarticles"
    base_url := "https://www.cell.com"
    include_terms := ["research article", "article"]
    exclude_terms := ["news", "editorial", "briefing", "ahead of print", "perspective", "pre-proof"] }

/-- Nature entry of JOURNAL_CONFIGS (src/main.py lines 59-65). -/
def natureConfig : JournalConfig :=
  { name := "Nature"
    url := "https://www.nature.com/nature/research-articles"
    base_url := "https://www.nature.com"
    include_terms := ["research article", "research"]
    exclude_terms := ["news & views"] }

/-- Science entry of JOURNAL_CONFIGS (src/main.py lines 66-72). -/
def scienceConfig : JournalConfig :=
  { name := "Science"
    url := "https://www.science.org/journal/science/research"
    base_url := "https://www.science.org"
    include_terms := ["research article", "research"]
    exclude_terms := ["perspective", "books", "policy forum", "letter", "news"] }

/-- Model of JOURNAL_CONFIGS (src/main.py lines 44-73). -/
def JOURNAL_CONFIGS : List JournalConfig :=
  [cellConfig, natureConfig, scienceConfig]

/-- Card selected by article.c-card in parse_nature, with the tags its
sub-selectors can find. -/
structure NatureCard where
  titleTag : Option Tag
  summaryTag : Option Tag
  timeTag : Option Tag
deriving DecidableEq, Repr

/-- Container selected in parse_science, with the two alternative title
selectors of choose_title. -/
structure ScienceCard where
  titleTagH3 : Option Tag
  titleTagCard : Option Tag
  summaryTag : Option Tag
  timeTag : Option Tag
deriving DecidableEq, Repr

/-- Item selected by div.toc__item in parse_cell. -/
structure CellCard where
  titleTag : Option Tag
  summaryTag : Option Tag
  dateTag : Option Tag
deriving DecidableEq, Repr

/-- Parsed page as the three parsers see it: the card lists their
top-level CSS selectors would return (the BeautifulSoup parsing itself is
outside the embedding). -/
structure Html where
  natureCards : List NatureCard
  scienceCards : List ScienceCard
  cellItems : List CellCard
deriving DecidableEq, Repr

/-- Published-date selection shared by parse_nature (src/main.py lines
141-145) and parse_science (lines 176-180): the datetime attribute is
used when the time tag exists and the attribute is truthy, otherwise the
tag text. -/
def dateFromTimeTag : Option Tag → Option PyDateTime
  | none => parse_date (some (text_or_empty none))
  | some t =>
    match tagGet t "datetime" with
    | some dt =>
      if dt.data.isEmpty then parse_date (some (text_or_empty (some t)))
      else parse_date (some dt)
    | none => parse_date (some (text_or_empty (some t)))

/-- Published-date selection of parse_nature (src/main.py lines 141-145). -/
def natureDate (card : NatureCard) : Option PyDateTime :=
  dateFromTimeTag card.timeTag

/-- Model of parse_nature (src/main.py lines 130-155): cards without a
title tag are skipped, links are resolved against the base URL. -/
def parse_nature (html : Html) (config : JournalConfig) : List Article :=
  html.natureCards.filterMap fun card =>
    match card.titleTag with
    | none => none
    | some titleTag =>
      some { title := text_or_empty (some titleTag)
             link := urljoin config.base_url (tagGetD titleTag "href")
             summary := text_or_empty card.summaryTag
             published := natureDate card
             source := config.name }

/-- Model of choose_title in parse_science (src/main.py lines 164-168). -/
def choose_title (card : ScienceCard) : Option Tag :=
  match card.titleTagH3 with
  | some t => some t
  | none => card.titleTagCard

/-- Published-date selection of parse_science (src/main.py lines 176-180). -/
def scienceDate (card : ScienceCard) : Option PyDateTime :=
  dateFromTimeTag card.timeTag

/-- Model of parse_science (src/main.py lines 158-190). -/
def parse_science (html : Html) (config : JournalConfig) : List Article :=
  html.scienceCards.filterMap fun card =>
    match choose_title card with
    | none => none
    | some titleTag =>
      some { title := text_or_empty (some titleTag)
             link := urljoin config.base_url (tagGetD titleTag "href")
             summary := text_or_empty card.summaryTag
             published := scienceDate card
             source := config.name }

/-- Model of parse_cell (src/main.py lines 193-214). -/
def parse_cell (html : Html) (config : JournalConfig) : List Article :=
  html.cellItems.filterMap fun card =>
    match card.titleTag with
    | none => none
    | some titleTag =>
      some { title := text_or_empty (some titleTag)
             link := urljoin config.base_url (tagGetD titleTag "href")
             summary := text_or_empty card.summaryTag
             published := parse_date (some (text_or_empty card.dateTag))
             source := config.name }

/-- Model of PARSER_MAP (src/main.py lines 217-221). -/
def PARSER_MAP (name : String) : Option (Html → JournalConfig → List Article) :=
  if name = "Cell" then some parse_cell
  else if name = "Nature" then some parse_nature
  else if name = "Science" then some parse_science
  else none

/-- Validity filter of parse_journal (src/main.py line 231): Python string
truthiness of title and link. -/
def keepArticle (a : Article) : Bool :=
  !a.title.data.isEmpty && !a.link.data.isEmpty

/-- Model of parse_journal (src/main.py lines 224-233); the two print
calls are side effects with no bearing on the returned value. -/
def parse_journal (html : Html) (config : JournalConfig) : List Article :=
  match PARSER_MAP config.name with
  | none => []
  | some parser => (parser html config).filter keepArticle

/-- Model of ensure_timezone (src/main.py lines 236-241): the fallback for
a missing datetime is 1970-01-01 at UTC, and a naive datetime is stamped
with UTC. -/
def ensure_timezone (value : Option PyDateTime) : PyDateTime :=
  match value with
  | none => ⟨1970, 1, 1, 0, 0, 0, some 0⟩
  | some v => if v.tz.isSome then v else { v with tz := some 0 }

/-- Days since 1970-01-01 of a Gregorian date (civil-days algorithm); all
intermediate quotients are of non-negative values for the years the
datetime constructor admits, so truncated division agrees with floor. -/
def daysFromCivil (y m d : Nat) : Int :=
  let yy : Int := if m ≤ 2 then (y : Int) - 1 else (y : Int)
  let era : Int := yy / 400
  let yoe : Int := yy - era * 400
  let mp : Int := if 2 < m then (m : Int) - 3 else (m : Int) + 9
  let doy : Int := (153 * mp + 2) / 5 + (d : Int) - 1
  let doe : Int := yoe * 365 + yoe / 4 - yoe / 100 + doy
  era * 146097 + doe - 719468

/-- Instant of an aware datetime in seconds since the epoch; Python
compares aware datetimes by this instant. -/
def epochSeconds (t : PyDateTime) : Int :=
  daysFromCivil t.year t.month t.day * 86400
    + (t.hour : Int) * 3600 + (t.minute : Int) * 60 + (t.second : Int)
    - (match t.tz with | some off => off | none => 0) * 60

/-- Sort key of build_feed (src/main.py lines 247-251), as the instant the
aware datetime ensure_timezone produces denotes. -/
def feedKey (a : Article) : Int :=
  epochSeconds (ensure_timezone a.published)

/-- Stable descending insertion by key: an element is placed before the
first element whose key is not larger, so elements with equal keys keep
their original relative order. -/
def insertDescBy (key : Article → Int) (a : Article) : List Article → List Article
  | [] => [a]
  | b :: t => if key b ≤ key a then a :: b :: t else b :: insertDescBy key a t

/-- Model of sorted(articles, key=..., reverse=True) (src/main.py lines
247-251): Python sorted is stable also under reverse=True, and this
insertion sort computes exactly the stable descending reordering. -/
def pySortDescBy (key : Article → Int) : List Article → List Article
  | [] => []
  | a :: t => insertDescBy key a (pySortDescBy key t)

/-- Walk of build_feed over the sorted list (src/main.py lines 252-256):
an article is kept only when its link was not seen before, first
occurrence winning; the seen set is modelled as a list queried by
membership. -/
def dedupByLink : List Article → List String → List Article
  | [], _ => []
  | a :: rest, seen =>
    if a.link ∈ seen then dedupByLink rest seen
    else a :: dedupByLink rest (a.link :: seen)

/-- Model of build_feed (src/main.py lines 244-265) up to serialization:
the ordered, link-deduplicated article sequence whose entries become the
feed items (one item per article, in this order). -/
def build_feed (articles : List Article) : List Article :=
  dedupByLink (pySortDescBy feedKey articles) []

/-- Modelled from the spec: the candidate classifier of section 4.2 is
absent from src/main.py (only the include and exclude term lists in
JOURNAL_CONFIGS remain); the decision rule follows the spec wording: a
candidate is accepted iff (the source has no include terms, or the
lowercase projection contains at least one include term as a substring)
and the projection contains none of the exclude terms. -/
def classify_spec (include_terms exclude_terms : List String) (projection : String) : Bool :=
  (include_terms.isEmpty || include_terms.any (fun t => containsSub t.data projection.data)) &&
  !(exclude_terms.any (fun t => containsSub t.data projection.data))

/-- JSON-like structured-data value for the embedded-structured-data
strategy of the spec. -/
inductive Json where
  | str (s : String)
  | num (n : Int)
  | bool (b : Bool)
  | null
  | arr (elems : List Json)
  | obj (fields : List (String × Json))

/-- Key lookup in a structured-data object. -/
def lookupKey (fields : List (String × Json)) (k : String) : Option Json :=
  (fields.find? (fun p => p.1 == k)).map (fun p => p.2)

/-- Modelled from the spec: the embedded-structured-data strategy of
section 4.1 is absent from src/main.py (the stale JSON-LD print in
parse_journal is its only trace). Per the spec, a parsed list contributes
its elements; a container object contributes the entity list under its
graph key, the single entity or entity list under its main-entity key,
and the container object itself. -/
def collectEntities : Json → List Json
  | Json.arr xs => xs
  | Json.obj fs =>
    (match lookupKey fs "@graph" with
     | some (Json.arr gs) => gs
     | _ => []) ++
    (match lookupKey fs "mainEntity" with
     | some (Json.arr ms) => ms
     | some m => [m]
     | none => []) ++
    [Json.obj fs]
  | v => [v]

/-- Spec wording of the label-prefix trigger in section 4.3: the string
starts with a four-digit year. -/
def startsFourDigitYear (cs : List Char) : Bool :=
  match cs with
  | a :: b :: c :: d :: _ => isDigitChar a && isDigitChar b && isDigitChar c && isDigitChar d
  | _ => false

/-- Remainder after the first colon (the spec phrasing of discarding the
text before the first colon). -/
def afterColon : List Char → List Char
  | [] => []
  | c :: t => if c == ':' then t else afterColon t

/-- Model of datetime.strftime with format "%B %d, %Y" on a date (long
month name, zero-padded day, comma, four-digit year). -/
def strftimeBdY (y m d : Nat) : String :=
  String.mk (monthFullName m ++ (' ' :: pad2 d) ++ (',' :: ' ' :: pad4 y))

/-- Model of datetime.strftime with format "%d %b %Y". -/
def strftimeDbY (y m d : Nat) : String :=
  String.mk (pad2 d ++ (' ' :: monthAbbrName m) ++ (' ' :: pad4 y))

/-- Model of datetime.strftime with format "%Y-%m-%d". -/
def strftimeYmd (y m d : Nat) : String :=
  String.mk (pad4 y ++ ('-' :: pad2 m) ++ ('-' :: pad2 d))

/-- Model of datetime.strftime with format "%Y-%m-%dT%H:%M:%S". -/
def strftimeYmdHMS (y m d h mi s : Nat) : String :=
  String.mk (pad4 y ++ ('-' :: pad2 m) ++ ('-' :: pad2 d) ++
    ('T' :: pad2 h) ++ (':' :: pad2 mi) ++ (':' :: pad2 s))

/-- Concrete title tag for the classifier failing input: its text is the
projection of the first classifier scenario in the spec. -/
def tagC3 : Tag := ⟨["research article genomics news roundup"], [("href", "/x")]⟩

/-- Cell card holding the classifier failing input. -/
def cardC3 : CellCard := ⟨some tagC3, none, none⟩

/-- Page holding only the classifier failing input. -/
def htmlC3 : Html := ⟨[], [], [cardC3]⟩

/-- Article the pipeline produces for the classifier failing input. -/
def articleC3 : Article :=
  ⟨"research article genomics news roundup", "https://www.cell.com/x", "", none, "Cell"⟩

/-- Aware datetime for 2024-03-03 at UTC. -/
def dtC9 : PyDateTime := ⟨2024, 3, 3, 0, 0, 0, some 0⟩

/-- Cell card with a parseable date, for the timezone-awareness witness. -/
def cardC9 : CellCard :=
  ⟨some ⟨["Gene editing advance"], [("href", "/y")]⟩, none, some ⟨["2024-03-03"], []⟩⟩

/-- Page holding only the dated card. -/
def htmlC9 : Html := ⟨[], [], [cardC9]⟩

/-- Article the pipeline produces for the dated card. -/
def articleC9 : Article :=
  ⟨"Gene editing advance", "https://www.cell.com/y", "", some dtC9, "Cell"⟩

/-- Article published before the Unix epoch. -/
def art1960 : Article :=
  ⟨"Article from 1960", "https://x/a", "", some ⟨1960, 1, 1, 0, 0, 0, some 0⟩, "Science"⟩

/-- Article with an absent published date. -/
def artAbsent : Article :=
  ⟨"Article without date", "https://x/b", "", none, "Science"⟩

/-- Article published in 2024. -/
def artRecent : Article :=
  ⟨"Recent article", "https://x/c", "", some ⟨2024, 1, 2, 0, 0, 0, some 0⟩, "Nature"⟩

/-- First of two undated articles with distinct links (equal sort keys). -/
def artTieA : Article := ⟨"Tie A", "https://x/t1", "", none, "Cell"⟩

/-- Second of two undated articles with distinct links (equal sort keys). -/
def artTieB : Article := ⟨"Tie B", "https://x/t2", "", none, "Cell"⟩

/-! Helper lemmas about characters, digits and the low-level parsers. -/

theorem char_ne_of_toNat_ne {a b : Char} (h : a.toNat ≠ b.toNat) : a ≠ b :=
  fun he => h (he ▸ rfl)

theorem digitChar_props : ∀ k, k ≤ 9 →
    isDigitChar (digitChar k) = true ∧ digitVal (digitChar k) = k := by decide

theorem isDigitChar_toNat {c : Char} (h : isDigitChar c = true) :
    48 ≤ c.toNat ∧ c.toNat ≤ 57 := by
  simpa [isDigitChar, Bool.and_eq_true, decide_eq_true_eq] using h

theorem isDigitChar_props {c : Char} (h : isDigitChar c = true) :
    isSpaceChar c = false ∧ (c == ':') = false ∧ (c == 'Z') = false ∧ lowerChar c = c := by
  obtain ⟨h1, h2⟩ := isDigitChar_toNat h
  refine ⟨?_, ?_, ?_, ?_⟩
  · simp only [isSpaceChar, Bool.or_eq_false_iff, beq_eq_false_iff_ne]
    omega
  · exact beq_eq_false_iff_ne.mpr (char_ne_of_toNat_ne (by have : (':').toNat = 58 := rfl; omega))
  · exact beq_eq_false_iff_ne.mpr (char_ne_of_toNat_ne (by have : ('Z').toNat = 90 := rfl; omega))
  · simp only [lowerChar]
    rw [if_neg]
    omega

theorem isDigitChar_digit {k : Nat} (h : k ≤ 9) : isDigitChar (digitChar k) = true :=
  (digitChar_props k h).1

theorem digitVal_digit {k : Nat} (h : k ≤ 9) : digitVal (digitChar k) = k :=
  (digitChar_props k h).2

theorem pad2_mem {n : Nat} (h : n ≤ 99) : ∀ c ∈ pad2 n, isDigitChar c = true := by
  intro c hc
  simp only [pad2, List.mem_cons, List.not_mem_nil, or_false] at hc
  rcases hc with rfl | rfl
  · exact isDigitChar_digit (by omega)
  · exact isDigitChar_digit (by omega)

theorem pad4_mem {n : Nat} (h : n ≤ 9999) : ∀ c ∈ pad4 n, isDigitChar c = true := by
  intro c hc
  simp only [pad4, List.mem_cons, List.not_mem_nil, or_false] at hc
  rcases hc with rfl | rfl | rfl | rfl
  · exact isDigitChar_digit (by omega)
  · exact isDigitChar_digit (by omega)
  · exact isDigitChar_digit (by omega)
  · exact isDigitChar_digit (by omega)

theorem parse2_pad2 {n : Nat} (h : n ≤ 99) (r : List Char) :
    parse2 (pad2 n ++ r) = some (n, r) := by
  have h1 : n / 10 ≤ 9 := by omega
  have h2 : n % 10 ≤ 9 := by omega
  simp [pad2, parse2, isDigitChar_digit h1, isDigitChar_digit h2,
    digitVal_digit h1, digitVal_digit h2]
  omega

theorem parse4_pad4 {n : Nat} (h : n ≤ 9999) (r : List Char) :
    parse4 (pad4 n ++ r) = some (n, r) := by
  have h1 : n / 1000 ≤ 9 := by omega
  have h2 : n / 100 % 10 ≤ 9 := by omega
  have h3 : n / 10 % 10 ≤ 9 := by omega
  have h4 : n % 10 ≤ 9 := by omega
  simp [pad4, parse4, isDigitChar_digit h1, isDigitChar_digit h2, isDigitChar_digit h3,
    isDigitChar_digit h4, digitVal_digit h1, digitVal_digit h2, digitVal_digit h3,
    digitVal_digit h4]
  omega

theorem parse4_none_of_head {c : Char} (l : List Char) (h : isDigitChar c = false) :
    parse4 (c :: l) = none := by
  cases l with
  | nil => rfl
  | cons a l2 =>
    cases l2 with
    | nil => rfl
    | cons b l3 =>
      cases l3 with
      | nil => rfl
      | cons e l4 => simp [parse4, h]

theorem parse2or1_pad2 {lo hi n : Nat} (hlo : lo ≤ n) (hhi : n ≤ hi) (h99 : n ≤ 99)
    (r : List Char) : parse2or1 lo hi (pad2 n ++ r) = some (n, r) := by
  have h1 : n / 10 ≤ 9 := by omega
  have h2 : n % 10 ≤ 9 := by omega
  have e : digitVal (digitChar (n / 10)) * 10 + digitVal (digitChar (n % 10)) = n := by
    rw [digitVal_digit h1, digitVal_digit h2]; omega
  simp [pad2, parse2or1, isDigitChar_digit h1, isDigitChar_digit h2, e, hlo, hhi]

theorem skipWs1_cons_space {c : Char} (hc : isSpaceChar c = false) (l : List Char) :
    skipWs1 (' ' :: c :: l) = some (c :: l) := by
  simp [skipWs1, List.dropWhile_cons, hc, show isSpaceChar ' ' = true from rfl]

theorem dropStartCI_self : ∀ (p r : List Char), dropStartCI p (p ++ r) = some r := by
  intro p
  induction p with
  | nil => intro r; rfl
  | cons c cs ih => intro r; simp [dropStartCI, ih]

theorem replaceZ_eq_self : ∀ l : List Char, (∀ c ∈ l, (c == 'Z') = false) → replaceZ l = l := by
  intro l
  induction l with
  | nil => intro _; rfl
  | cons c t ih =>
    intro h
    have hc := h c (List.mem_cons_self c t)
    rw [replaceZ, if_neg (by simp [hc]), ih (fun x hx => h x (List.mem_cons_of_mem c hx))]

theorem dropWhile_eq_self_of_head {p : Char → Bool} {l : List Char}
    (h : ∀ c, l.head? = some c → p c = false) : l.dropWhile p = l := by
  cases l with
  | nil => rfl
  | cons c t => simp [List.dropWhile_cons, h c rfl]

theorem pyStrip_eq_self {l : List Char}
    (h1 : ∀ c, l.head? = some c → isSpaceChar c = false)
    (h2 : ∀ c, l.getLast? = some c → isSpaceChar c = false) :
    pyStrip l = l := by
  unfold pyStrip
  rw [dropWhile_eq_self_of_head h1]
  rw [dropWhile_eq_self_of_head (fun c hc => h2 c (by rwa [List.head?_reverse] at hc))]
  exact List.reverse_reverse l

theorem getLast?_append_pad4 (l : List Char) (n : Nat) :
    (l ++ pad4 n).getLast? = some (digitChar (n % 10)) := by
  rw [show l ++ pad4 n =
    (l ++ [digitChar (n / 1000), digitChar (n / 100 % 10), digitChar (n / 10 % 10)]) ++
      [digitChar (n % 10)] by simp [pad4]]
  exact List.getLast?_concat _

theorem getLast?_append_pad2 (l : List Char) (n : Nat) :
    (l ++ pad2 n).getLast? = some (digitChar (n % 10)) := by
  rw [show l ++ pad2 n = (l ++ [digitChar (n / 10)]) ++ [digitChar (n % 10)] by simp [pad2]]
  exact List.getLast?_concat _

theorem monthFull_ne_nil : ∀ m, 1 ≤ m → m ≤ 12 → monthFullName m ≠ [] := by decide

theorem monthAbbr_ne_nil : ∀ m, 1 ≤ m → m ≤ 12 → monthAbbrName m ≠ [] := by decide

theorem monthFull_all_ok : ∀ m, 1 ≤ m → m ≤ 12 →
    ((monthFullName m).all fun c =>
      !(c == ':') && !(c == 'Z') && !isSpaceChar c && !isDigitChar c) = true := by decide

theorem monthAbbr_all_ok : ∀ m, 1 ≤ m → m ≤ 12 →
    ((monthAbbrName m).all fun c =>
      !(c == ':') && !(c == 'Z') && !isSpaceChar c && !isDigitChar c) = true := by decide

theorem monthFull_mem_props {m : Nat} (h1 : 1 ≤ m) (h2 : m ≤ 12) :
    ∀ c ∈ monthFullName m,
      (c == ':') = false ∧ (c == 'Z') = false ∧ isSpaceChar c = false ∧ isDigitChar c = false := by
  intro c hc
  have := List.all_eq_true.mp (monthFull_all_ok m h1 h2) c hc
  simp only [Bool.and_eq_true, Bool.not_eq_true'] at this
  exact ⟨this.1.1.1, this.1.1.2, this.1.2, this.2⟩

theorem monthAbbr_mem_props {m : Nat} (h1 : 1 ≤ m) (h2 : m ≤ 12) :
    ∀ c ∈ monthAbbrName m,
      (c == ':') = false ∧ (c == 'Z') = false ∧ isSpaceChar c = false ∧ isDigitChar c = false := by
  intro c hc
  have := List.all_eq_true.mp (monthAbbr_all_ok m h1 h2) c hc
  simp only [Bool.and_eq_true, Bool.not_eq_true'] at this
  exact ⟨this.1.1.1, this.1.1.2, this.1.2, this.2⟩

theorem matchMonthFull_name : ∀ m, 1 ≤ m → m ≤ 12 → ∀ r : List Char,
    matchMonthIn monthsFull (monthFullName m ++ r) = some (m, r) := by
  intro m h1 h2 r
  interval_cases m <;> rfl

theorem matchMonthAbbr_name : ∀ m, 1 ≤ m → m ≤ 12 → ∀ r : List Char,
    matchMonthIn monthsAbbr (monthAbbrName m ++ r) = some (m, r) := by
  intro m h1 h2 r
  interval_cases m <;> rfl

theorem matchMonthFull_digit {c : Char} (hc : isDigitChar c = true) (l : List Char) :
    matchMonthIn monthsFull (c :: l) = none := by
  obtain ⟨hlo, hhi⟩ := isDigitChar_toNat hc
  have hlow : lowerChar c = c := (isDigitChar_props hc).2.2.2
  have hne : ∀ d : Char, 97 ≤ d.toNat → (d == lowerChar c) = false := by
    intro d hd
    rw [hlow]
    exact beq_eq_false_iff_ne.mpr (char_ne_of_toNat_ne (by omega))
  simp [monthsFull, matchMonthIn, monthFullName, dropStartCI,
    show lowerChar 'J' = 'j' from rfl, show lowerChar 'F' = 'f' from rfl,
    show lowerChar 'M' = 'm' from rfl, show lowerChar 'A' = 'a' from rfl,
    show lowerChar 'S' = 's' from rfl, show lowerChar 'O' = 'o' from rfl,
    show lowerChar 'N' = 'n' from rfl, show lowerChar 'D' = 'd' from rfl,
    hne 'j' (by decide), hne 'f' (by decide), hne 'm' (by decide), hne 'a' (by decide),
    hne 's' (by decide), hne 'o' (by decide), hne 'n' (by decide), hne 'd' (by decide)]

theorem daysInMonth_le_31 (y m : Nat) : daysInMonth y m ≤ 31 := by
  unfold daysInMonth
  split
  · split <;> omega
  · split <;> omega

theorem validDate_bounds {y m d : Nat} (h : validDate y m d = true) :
    1 ≤ y ∧ y ≤ 9999 ∧ 1 ≤ m ∧ m ≤ 12 ∧ 1 ≤ d ∧ d ≤ 31 := by
  have h31 := daysInMonth_le_31 y m
  simp only [validDate, Bool.and_eq_true, decide_eq_true_eq] at h
  omega

theorem roundtrip_Ymd {y m d : Nat} (hv : validDate y m d = true) :
    parse_date (some (strftimeYmd y m d)) = some ⟨y, m, d, 0, 0, 0, some 0⟩ := by
  obtain ⟨hy1, hy2, hm1, hm2, hd1, hd2⟩ := validDate_bounds hv
  have hsh : (strftimeYmd y m d).data =
      digitChar (y / 1000) :: digitChar (y / 100 % 10) :: digitChar (y / 10 % 10) ::
      digitChar (y % 10) :: '-' :: digitChar (m / 10) :: digitChar (m % 10) :: '-' ::
      digitChar (d / 10) :: digitChar (d % 10) :: [] := by
    simp [strftimeYmd, pad4, pad2]
  have hmemd : ∀ x ∈ (strftimeYmd y m d).data, (x == ':') = false ∧ (x == 'Z') = false := by
    intro x hx
    rw [hsh] at hx
    simp only [List.mem_cons, List.not_mem_nil, or_false] at hx
    rcases hx with rfl | rfl | rfl | rfl | rfl | rfl | rfl | rfl | rfl | rfl
    · exact ⟨(isDigitChar_props (isDigitChar_digit (by omega))).2.1,
        (isDigitChar_props (isDigitChar_digit (by omega))).2.2.1⟩
    · exact ⟨(isDigitChar_props (isDigitChar_digit (by omega))).2.1,
        (isDigitChar_props (isDigitChar_digit (by omega))).2.2.1⟩
    · exact ⟨(isDigitChar_props (isDigitChar_digit (by omega))).2.1,
        (isDigitChar_props (isDigitChar_digit (by omega))).2.2.1⟩
    · exact ⟨(isDigitChar_props (isDigitChar_digit (by omega))).2.1,
        (isDigitChar_props (isDigitChar_digit (by omega))).2.2.1⟩
    · exact ⟨by decide, by decide⟩
    · exact ⟨(isDigitChar_props (isDigitChar_digit (by omega))).2.1,
        (isDigitChar_props (isDigitChar_digit (by omega))).2.2.1⟩
    · exact ⟨(isDigitChar_props (isDigitChar_digit (by omega))).2.1,
        (isDigitChar_props (isDigitChar_digit (by omega))).2.2.1⟩
    · exact ⟨by decide, by decide⟩
    · exact ⟨(isDigitChar_props (isDigitChar_digit (by omega))).2.1,
        (isDigitChar_props (isDigitChar_digit (by omega))).2.2.1⟩
    · exact ⟨(isDigitChar_props (isDigitChar_digit (by omega))).2.1,
        (isDigitChar_props (isDigitChar_digit (by omega))).2.2.1⟩
  have hstrip : pyStrip (strftimeYmd y m d).data = (strftimeYmd y m d).data := by
    apply pyStrip_eq_self
    · intro c hc
      rw [hsh] at hc
      simp only [List.head?_cons, Option.some.injEq] at hc
      subst hc
      exact (isDigitChar_props (isDigitChar_digit (by omega))).1
    · intro c hc
      rw [hsh] at hc
      have : some (digitChar (d % 10)) = some c := by rw [← hc]; rfl
      cases this
      exact (isDigitChar_props (isDigitChar_digit (by omega))).1
  have hany : ((strftimeYmd y m d).data.any fun c => c == ':') = false :=
    List.any_eq_false.mpr (fun x hx => by simp [(hmemd x hx).1])
  have hdl : discardLabel (strftimeYmd y m d).data = (strftimeYmd y m d).data := by
    simp [discardLabel, hany]
  have hrz : replaceZ (strftimeYmd y m d).data = (strftimeYmd y m d).data :=
    replaceZ_eq_self _ (fun c hc => (hmemd c hc).2)
  have hp2d : parse2 (pad2 d) = some (d, []) := by
    have := parse2_pad2 (show d ≤ 99 by omega) ([] : List Char)
    rwa [List.append_nil] at this
  have hiso : fromisoChars (strftimeYmd y m d).data = some ⟨y, m, d, 0, 0, 0, none⟩ := by
    rw [show (strftimeYmd y m d).data = pad4 y ++ ('-' :: (pad2 m ++ ('-' :: pad2 d))) from by
      simp [strftimeYmd]]
    rw [fromisoChars, parse4_pad4 (show y ≤ 9999 by omega)]
    simp only
    rw [parse2_pad2 (show m ≤ 99 by omega)]
    simp only
    rw [hp2d]
    simp [datetime?, hv]
  have hne : ((strftimeYmd y m d).data.isEmpty) = false := by
    rw [hsh]; rfl
  rw [parse_date]
  rw [if_neg (by simp [hne])]
  rw [parseDateChars]
  simp [hstrip, hdl, hrz, hiso]

theorem roundtrip_YmdHMS {y m d h mi s : Nat} (hv : validDate y m d = true)
    (hy20 : y / 100 = 20) (hh : h ≤ 23) (hmi : mi ≤ 59) (hs : s ≤ 59) :
    parse_date (some (strftimeYmdHMS y m d h mi s)) = some ⟨y, m, d, h, mi, s, some 0⟩ := by
  obtain ⟨hy1, hy2, hm1, hm2, hd1, hd2⟩ := validDate_bounds hv
  have hsh : (strftimeYmdHMS y m d h mi s).data =
      digitChar (y / 1000) :: digitChar (y / 100 % 10) :: digitChar (y / 10 % 10) ::
      digitChar (y % 10) :: '-' :: digitChar (m / 10) :: digitChar (m % 10) :: '-' ::
      digitChar (d / 10) :: digitChar (d % 10) :: 'T' :: digitChar (h / 10) ::
      digitChar (h % 10) :: ':' :: digitChar (mi / 10) :: digitChar (mi % 10) :: ':' ::
      digitChar (s / 10) :: digitChar (s % 10) :: [] := by
    simp [strftimeYmdHMS, pad4, pad2]
  have hz : ∀ x ∈ (strftimeYmdHMS y m d h mi s).data, (x == 'Z') = false := by
    intro x hx
    rw [hsh] at hx
    simp only [List.mem_cons, List.not_mem_nil, or_false] at hx
    rcases hx with rfl | rfl | rfl | rfl | rfl | rfl | rfl | rfl | rfl | rfl | rfl | rfl |
      rfl | rfl | rfl | rfl | rfl | rfl | rfl
    all_goals first
      | exact (isDigitChar_props (isDigitChar_digit (by omega))).2.2.1
      | decide
  have hstrip : pyStrip (strftimeYmdHMS y m d h mi s).data = (strftimeYmdHMS y m d h mi s).data := by
    apply pyStrip_eq_self
    · intro c hc
      rw [hsh] at hc
      simp only [List.head?_cons, Option.some.injEq] at hc
      subst hc
      exact (isDigitChar_props (isDigitChar_digit (by omega))).1
    · intro c hc
      rw [hsh] at hc
      have : some (digitChar (s % 10)) = some c := by rw [← hc]; rfl
      cases this
      exact (isDigitChar_props (isDigitChar_digit (by omega))).1
  have e1 : y / 1000 = 2 := by omega
  have e2 : y / 100 % 10 = 0 := by omega
  have hstarts : startsList ['2', '0'] (strftimeYmdHMS y m d h mi s).data = true := by
    rw [hsh, e1, e2]; rfl
  have hdl : discardLabel (strftimeYmdHMS y m d h mi s).data = (strftimeYmdHMS y m d h mi s).data := by
    simp [discardLabel, hstarts]
  have hrz : replaceZ (strftimeYmdHMS y m d h mi s).data = (strftimeYmdHMS y m d h mi s).data :=
    replaceZ_eq_self _ hz
  have hp2s : parse2 (pad2 s) = some (s, []) := by
    have := parse2_pad2 (show s ≤ 99 by omega) ([] : List Char)
    rwa [List.append_nil] at this
  have hiso : fromisoChars (strftimeYmdHMS y m d h mi s).data = some ⟨y, m, d, h, mi, s, none⟩ := by
    rw [show (strftimeYmdHMS y m d h mi s).data =
      pad4 y ++ ('-' :: (pad2 m ++ ('-' :: (pad2 d ++ ('T' :: (pad2 h ++ (':' ::
        (pad2 mi ++ (':' :: pad2 s))))))))) from by simp [strftimeYmdHMS]]
    rw [fromisoChars, parse4_pad4 (show y ≤ 9999 by omega)]
    simp only
    rw [parse2_pad2 (show m ≤ 99 by omega)]
    simp only
    rw [parse2_pad2 (show d ≤ 99 by omega)]
    simp only
    rw [fromisoTimeFields, parse2_pad2 (show h ≤ 99 by omega)]
    simp only
    rw [parse2_pad2 (show mi ≤ 99 by omega)]
    simp only
    rw [hp2s]
    simp [datetime?, hv, hh, hmi, hs]
  have hne : ((strftimeYmdHMS y m d h mi s).data.isEmpty) = false := by
    rw [hsh]; rfl
  rw [parse_date]
  rw [if_neg (by simp [hne])]
  rw [parseDateChars]
  simp [hstrip, hdl, hrz, hiso]

theorem skipWs1_space_pad2 {n : Nat} (h : n ≤ 99) (r : List Char) :
    skipWs1 (' ' :: (pad2 n ++ r)) = some (pad2 n ++ r) := by
  rw [show pad2 n ++ r = digitChar (n / 10) :: (digitChar (n % 10) :: r) from by simp [pad2]]
  exact skipWs1_cons_space (isDigitChar_props (isDigitChar_digit (by omega))).1 _

theorem skipWs1_space_pad4 {n : Nat} (h : n ≤ 9999) :
    skipWs1 (' ' :: pad4 n) = some (pad4 n) := by
  rw [show (pad4 n : List Char) = digitChar (n / 1000) :: (digitChar (n / 100 % 10) ::
    digitChar (n / 10 % 10) :: digitChar (n % 10) :: []) from rfl]
  exact skipWs1_cons_space (isDigitChar_props (isDigitChar_digit (by omega))).1 _

theorem parse4_pad4_nil {n : Nat} (h : n ≤ 9999) : parse4 (pad4 n) = some (n, []) := by
  have := parse4_pad4 h ([] : List Char)
  rwa [List.append_nil] at this

theorem roundtrip_BdY {y m d : Nat} (hv : validDate y m d = true) (hy1000 : 1000 ≤ y) :
    parse_date (some (strftimeBdY y m d)) = some ⟨y, m, d, 0, 0, 0, some 0⟩ := by
  obtain ⟨hy1, hy2, hm1, hm2, hd1, hd2⟩ := validDate_bounds hv
  obtain ⟨c, t, hname⟩ : ∃ c t, monthFullName m = c :: t := by
    cases hn : monthFullName m with
    | nil => exact absurd hn (monthFull_ne_nil m hm1 hm2)
    | cons c t => exact ⟨c, t, rfl⟩
  have hcprops := monthFull_mem_props hm1 hm2 c (by rw [hname]; exact List.mem_cons_self c t)
  have hmemd : ∀ x ∈ (strftimeBdY y m d).data, (x == ':') = false ∧ (x == 'Z') = false := by
    intro x hx
    have hx' : x ∈ monthFullName m ++ (' ' :: pad2 d) ++ (',' :: ' ' :: pad4 y) := hx
    simp only [List.mem_append, List.mem_cons] at hx'
    rcases hx' with (hn | (rfl | hp)) | (rfl | rfl | hp)
    · exact ⟨(monthFull_mem_props hm1 hm2 x hn).1, (monthFull_mem_props hm1 hm2 x hn).2.1⟩
    · exact ⟨by decide, by decide⟩
    · exact ⟨(isDigitChar_props (pad2_mem (by omega) x hp)).2.1,
        (isDigitChar_props (pad2_mem (by omega) x hp)).2.2.1⟩
    · exact ⟨by decide, by decide⟩
    · exact ⟨by decide, by decide⟩
    · exact ⟨(isDigitChar_props (pad4_mem (by omega) x hp)).2.1,
        (isDigitChar_props (pad4_mem (by omega) x hp)).2.2.1⟩
  have hstrip : pyStrip (strftimeBdY y m d).data = (strftimeBdY y m d).data := by
    apply pyStrip_eq_self
    · intro x hx
      have hx' : (monthFullName m ++ (' ' :: pad2 d) ++ (',' :: ' ' :: pad4 y)).head? = some x := hx
      rw [hname] at hx'
      simp only [List.cons_append, List.head?_cons, Option.some.injEq] at hx'
      subst hx'
      exact hcprops.2.2.1
    · intro x hx
      have hx' : (monthFullName m ++ (' ' :: pad2 d) ++ (',' :: ' ' :: pad4 y)).getLast? = some x := hx
      rw [show monthFullName m ++ (' ' :: pad2 d) ++ (',' :: ' ' :: pad4 y) =
        (monthFullName m ++ (' ' :: pad2 d) ++ [',', ' ']) ++ pad4 y from by simp] at hx'
      rw [getLast?_append_pad4] at hx'
      cases hx'
      exact (isDigitChar_props (isDigitChar_digit (by omega))).1
  have hany : ((strftimeBdY y m d).data.any fun x => x == ':') = false :=
    List.any_eq_false.mpr (fun x hx => by simp [(hmemd x hx).1])
  have hdl : discardLabel (strftimeBdY y m d).data = (strftimeBdY y m d).data := by
    simp [discardLabel, hany]
  have hrz : replaceZ (strftimeBdY y m d).data = (strftimeBdY y m d).data :=
    replaceZ_eq_self _ (fun x hx => (hmemd x hx).2)
  have hisoNone : fromisoChars (strftimeBdY y m d).data = none := by
    have : (strftimeBdY y m d).data = c :: (t ++ (' ' :: pad2 d) ++ (',' :: ' ' :: pad4 y)) := by
      show monthFullName m ++ (' ' :: pad2 d) ++ (',' :: ' ' :: pad4 y) = _
      rw [hname]; simp
    rw [this, fromisoChars, parse4_none_of_head _ (by simp [hcprops.2.2.2])]
  have hbdy : strptimeBdY (strftimeBdY y m d).data = some ⟨y, m, d, 0, 0, 0, none⟩ := by
    rw [show (strftimeBdY y m d).data =
      monthFullName m ++ (' ' :: (pad2 d ++ (',' :: ' ' :: pad4 y))) from by
        show monthFullName m ++ (' ' :: pad2 d) ++ (',' :: ' ' :: pad4 y) = _; simp]
    rw [strptimeBdY, matchMonthFull_name m hm1 hm2]
    simp only
    rw [skipWs1_space_pad2 (show d ≤ 99 by omega)]
    simp only
    rw [parse2or1_pad2 hd1 hd2 (show d ≤ 99 by omega)]
    simp only
    rw [skipWs1_space_pad4 hy2]
    simp only
    rw [parse4_pad4_nil hy2]
    simp [datetime?, hv]
  have htf : tryFormats (strftimeBdY y m d).data = some ⟨y, m, d, 0, 0, 0, some 0⟩ := by
    rw [tryFormats, hbdy]
  have hne : ((strftimeBdY y m d).data.isEmpty) = false := by
    show (monthFullName m ++ (' ' :: pad2 d) ++ (',' :: ' ' :: pad4 y)).isEmpty = false
    rw [hname]; rfl
  rw [parse_date]
  rw [if_neg (by simp [hne])]
  rw [parseDateChars]
  simp [hstrip, hdl, hrz, hisoNone, htf]

theorem roundtrip_DbY {y m d : Nat} (hv : validDate y m d = true) :
    parse_date (some (strftimeDbY y m d)) = some ⟨y, m, d, 0, 0, 0, some 0⟩ := by
  obtain ⟨hy1, hy2, hm1, hm2, hd1, hd2⟩ := validDate_bounds hv
  obtain ⟨c, t, hname⟩ : ∃ c t, monthAbbrName m = c :: t := by
    cases hn : monthAbbrName m with
    | nil => exact absurd hn (monthAbbr_ne_nil m hm1 hm2)
    | cons c t => exact ⟨c, t, rfl⟩
  have hcprops := monthAbbr_mem_props hm1 hm2 c (by rw [hname]; exact List.mem_cons_self c t)
  have hmemd : ∀ x ∈ (strftimeDbY y m d).data, (x == ':') = false ∧ (x == 'Z') = false := by
    intro x hx
    have hx' : x ∈ pad2 d ++ (' ' :: monthAbbrName m) ++ (' ' :: pad4 y) := hx
    simp only [List.mem_append, List.mem_cons] at hx'
    rcases hx' with (hp | (rfl | hn)) | (rfl | hp)
    · exact ⟨(isDigitChar_props (pad2_mem (by omega) x hp)).2.1,
        (isDigitChar_props (pad2_mem (by omega) x hp)).2.2.1⟩
    · exact ⟨by decide, by decide⟩
    · exact ⟨(monthAbbr_mem_props hm1 hm2 x hn).1, (monthAbbr_mem_props hm1 hm2 x hn).2.1⟩
    · exact ⟨by decide, by decide⟩
    · exact ⟨(isDigitChar_props (pad4_mem (by omega) x hp)).2.1,
        (isDigitChar_props (pad4_mem (by omega) x hp)).2.2.1⟩
  have hstrip : pyStrip (strftimeDbY y m d).data = (strftimeDbY y m d).data := by
    apply pyStrip_eq_self
    · intro x hx
      have hx' : (pad2 d ++ (' ' :: monthAbbrName m) ++ (' ' :: pad4 y)).head? = some x := hx
      simp only [pad2, List.cons_append, List.head?_cons, Option.some.injEq] at hx'
      subst hx'
      exact (isDigitChar_props (isDigitChar_digit (by omega))).1
    · intro x hx
      have hx' : (pad2 d ++ (' ' :: monthAbbrName m) ++ (' ' :: pad4 y)).getLast? = some x := hx
      rw [show pad2 d ++ (' ' :: monthAbbrName m) ++ (' ' :: pad4 y) =
        (pad2 d ++ (' ' :: monthAbbrName m) ++ [' ']) ++ pad4 y from by simp] at hx'
      rw [getLast?_append_pad4] at hx'
      cases hx'
      exact (isDigitChar_props (isDigitChar_digit (by omega))).1
  have hany : ((strftimeDbY y m d).data.any fun x => x == ':') = false :=
    List.any_eq_false.mpr (fun x hx => by simp [(hmemd x hx).1])
  have hdl : discardLabel (strftimeDbY y m d).data = (strftimeDbY y m d).data := by
    simp [discardLabel, hany]
  have hrz : replaceZ (strftimeDbY y m d).data = (strftimeDbY y m d).data :=
    replaceZ_eq_self _ (fun x hx => (hmemd x hx).2)
  have hshape : (strftimeDbY y m d).data =
      digitChar (d / 10) :: digitChar (d % 10) :: ' ' :: (monthAbbrName m ++ (' ' :: pad4 y)) := by
    show pad2 d ++ (' ' :: monthAbbrName m) ++ (' ' :: pad4 y) = _
    simp [pad2]
  have hisoNone : fromisoChars (strftimeDbY y m d).data = none := by
    rw [hshape, hname]
    simp only [List.cons_append]
    rw [fromisoChars]
    simp [parse4, show isSpaceChar ' ' = true from rfl, show isDigitChar ' ' = false from rfl]
  have hbdyNone : strptimeBdY (strftimeDbY y m d).data = none := by
    rw [hshape, strptimeBdY, matchMonthFull_digit (isDigitChar_digit (by omega))]
  have hdby : strptimeDbY (strftimeDbY y m d).data = some ⟨y, m, d, 0, 0, 0, none⟩ := by
    rw [show (strftimeDbY y m d).data =
      pad2 d ++ (' ' :: (monthAbbrName m ++ (' ' :: pad4 y))) from by
        show pad2 d ++ (' ' :: monthAbbrName m) ++ (' ' :: pad4 y) = _; simp]
    rw [strptimeDbY, parse2or1_pad2 hd1 hd2 (show d ≤ 99 by omega)]
    simp only
    rw [show skipWs1 (' ' :: (monthAbbrName m ++ (' ' :: pad4 y))) =
      some (monthAbbrName m ++ (' ' :: pad4 y)) from by
        rw [hname]; simp only [List.cons_append]
        exact skipWs1_cons_space hcprops.2.2.1 _]
    simp only
    rw [matchMonthAbbr_name m hm1 hm2]
    simp only
    rw [skipWs1_space_pad4 hy2]
    simp only
    rw [parse4_pad4_nil hy2]
    simp [datetime?, hv]
  have htf : tryFormats (strftimeDbY y m d).data = some ⟨y, m, d, 0, 0, 0, some 0⟩ := by
    rw [tryFormats, hbdyNone]
    simp only
    rw [hdby]
  have hne : ((strftimeDbY y m d).data.isEmpty) = false := by
    rw [hshape]; rfl
  rw [parse_date]
  rw [if_neg (by simp [hne])]
  rw [parseDateChars]
  simp [hstrip, hdl, hrz, hisoNone, htf]

/-- Claim C6 counterexample: formatting 1999-03-03T10:00:00 with the ISO
date-and-time fallback format and normalizing the result yields an absent
date, not the original point in time: the label-prefix heuristic fires
because the string contains colons and does not start with 20, leaving
the unparseable remainder 00:00. -/
theorem c6_counterexample :
    strftimeYmdHMS 1999 3 3 10 0 0 = "1999-03-03T10:00:00" ∧
    validDate 1999 3 3 = true ∧
    parse_date (some (strftimeYmdHMS 1999 3 3 10 0 0)) = none := by
  refine ⟨by decide, by decide, by decide⟩

/-- Claim C6 (amended): for every valid date with a four-digit year,
normalizing the string produced by the long month-day-year,
day-abbreviated-month-year, or plain ISO date format recovers the point
in time at day granularity interpreted as UTC; for the ISO date-and-time
format the same holds at second granularity provided the year lies in
2000-2099 (otherwise the label-prefix heuristic of the normalizer
destroys the string, as the counterexample shows). -/
theorem c6_roundtrip_amended (y m d h mi s : Nat) (hv : validDate y m d = true)
    (hy : 1000 ≤ y) (hh : h ≤ 23) (hmi : mi ≤ 59) (hs : s ≤ 59) :
    parse_date (some (strftimeBdY y m d)) = some ⟨y, m, d, 0, 0, 0, some 0⟩ ∧
    parse_date (some (strftimeDbY y m d)) = some ⟨y, m, d, 0, 0, 0, some 0⟩ ∧
    parse_date (some (strftimeYmd y m d)) = some ⟨y, m, d, 0, 0, 0, some 0⟩ ∧
    (y / 100 = 20 →
      parse_date (some (strftimeYmdHMS y m d h mi s)) = some ⟨y, m, d, h, mi, s, some 0⟩) :=
  ⟨roundtrip_BdY hv hy, roundtrip_DbY hv, roundtrip_Ymd hv,
   fun h20 => roundtrip_YmdHMS hv h20 hh hmi hs⟩

/-- Witness for the amended round-trip claim at 2024-03-03 10:30:05. -/
theorem c6_witness :
    (validDate 2024 3 3 = true ∧ 1000 ≤ 2024 ∧ 10 ≤ 23 ∧ 30 ≤ 59 ∧ 5 ≤ 59) ∧
    (parse_date (some (strftimeBdY 2024 3 3)) = some ⟨2024, 3, 3, 0, 0, 0, some 0⟩ ∧
     parse_date (some (strftimeDbY 2024 3 3)) = some ⟨2024, 3, 3, 0, 0, 0, some 0⟩ ∧
     parse_date (some (strftimeYmd 2024 3 3)) = some ⟨2024, 3, 3, 0, 0, 0, some 0⟩ ∧
     (2024 / 100 = 20 →
       parse_date (some (strftimeYmdHMS 2024 3 3 10 30 5)) =
         some ⟨2024, 3, 3, 10, 30, 5, some 0⟩)) :=
  ⟨⟨by decide, by decide, by decide, by decide, by decide⟩,
   c6_roundtrip_amended 2024 3 3 10 30 5 (by decide) (by decide) (by decide) (by decide)
     (by decide)⟩

theorem splitFirstColon_snd : ∀ cs : List Char,
    (splitFirstColon cs).2 = if cs.any (fun c => c == ':') then some (afterColon cs) else none := by
  intro cs
  induction cs with
  | nil => rfl
  | cons c t ih =>
    by_cases hc : c = ':'
    · subst hc
      simp [splitFirstColon, afterColon, List.any_cons]
    · have hcb : (c == ':') = false := beq_eq_false_iff_ne.mpr hc
      simp [splitFirstColon, afterColon, List.any_cons, hcb, ih]

/-- Claim C4 counterexample: the input 1999: March 3, 2024 starts with a
four-digit year and contains a colon, so per the claim the label prefix
must not be discarded (and the whole string parses as no date); the code
tests startswith("20") instead, discards the 1999 prefix and returns
2024-03-03 UTC. -/
theorem c4_counterexample :
    startsFourDigitYear "1999: March 3, 2024".data = true ∧
    ("1999: March 3, 2024".data.any fun c => c == ':') = true ∧
    discardLabel "1999: March 3, 2024".data ≠ "1999: March 3, 2024".data ∧
    parse_date (some "1999: March 3, 2024") = some ⟨2024, 3, 3, 0, 0, 0, some 0⟩ := by
  refine ⟨by decide, by decide, by decide, by decide⟩

/-- Claim C4 (amended): after stripping surrounding whitespace, the text
before the first colon is discarded (keeping the stripped remainder)
exactly when the string contains a colon and does not start with the two
characters 20 (not: with a four-digit year); the three scenarios hold as
stated. -/
theorem c4_label_prefix_amended :
    (∀ cs : List Char, discardLabel cs =
      if cs.any (fun c => c == ':') && !(startsList ['2', '0'] cs) then pyStrip (afterColon cs)
      else cs) ∧
    parse_date (some "Published: March 3, 2024") = some ⟨2024, 3, 3, 0, 0, 0, some 0⟩ ∧
    parse_date (some "2024-03-03T10:00:00Z") = some ⟨2024, 3, 3, 10, 0, 0, some 0⟩ ∧
    parse_date (some "not a date") = none := by
  refine ⟨?_, by decide, by decide, by decide⟩
  intro cs
  rw [discardLabel]
  by_cases h : (cs.any (fun c => c == ':') && !startsList ['2', '0'] cs) = true
  · have h' : cs.any (fun c => c == ':') = true ∧ (!startsList ['2', '0'] cs) = true := by
      rw [← Bool.and_eq_true]; exact h
    rw [if_pos h, if_pos h, splitFirstColon_snd, if_pos h'.1]
  · rw [if_neg h, if_neg h]

/-! Lemmas about the stable descending sort and the dedup walk. -/

theorem insertDescBy_perm (key : Article → Int) (a : Article) :
    ∀ m : List Article, (insertDescBy key a m).Perm (a :: m) := by
  intro m
  induction m with
  | nil => exact List.Perm.refl _
  | cons b t ih =>
    rw [insertDescBy]
    by_cases h : key b ≤ key a
    · rw [if_pos h]
    · rw [if_neg h]
      exact (ih.cons b).trans (List.Perm.swap a b t)

theorem pySortDescBy_perm (key : Article → Int) :
    ∀ l : List Article, (pySortDescBy key l).Perm l := by
  intro l
  induction l with
  | nil => exact List.Perm.refl _
  | cons a t ih =>
    rw [pySortDescBy]
    exact (insertDescBy_perm key a (pySortDescBy key t)).trans (ih.cons a)

theorem mem_insertDescBy {key : Article → Int} {a b : Article} {m : List Article} :
    b ∈ insertDescBy key a m ↔ b = a ∨ b ∈ m := by
  rw [(insertDescBy_perm key a m).mem_iff, List.mem_cons]

theorem pairwise_insertDescBy {key : Article → Int} {a : Article} {m : List Article}
    (h : m.Pairwise (fun x y => key y ≤ key x)) :
    (insertDescBy key a m).Pairwise (fun x y => key y ≤ key x) := by
  induction m with
  | nil => simp [insertDescBy]
  | cons b t ih =>
    rw [List.pairwise_cons] at h
    rw [insertDescBy]
    by_cases hba : key b ≤ key a
    · rw [if_pos hba]
      refine List.pairwise_cons.mpr ⟨?_, List.pairwise_cons.mpr h⟩
      intro y hy
      rcases List.mem_cons.mp hy with rfl | hy'
      · exact hba
      · exact le_trans (h.1 y hy') hba
    · rw [if_neg hba]
      refine List.pairwise_cons.mpr ⟨?_, ih h.2⟩
      intro y hy
      rcases mem_insertDescBy.mp hy with rfl | hy'
      · omega
      · exact h.1 y hy'

theorem pairwise_pySortDescBy (key : Article → Int) :
    ∀ l : List Article, (pySortDescBy key l).Pairwise (fun x y => key y ≤ key x) := by
  intro l
  induction l with
  | nil => simp [pySortDescBy]
  | cons a t ih =>
    rw [pySortDescBy]
    exact pairwise_insertDescBy ih

theorem filter_insertDescBy_pos {key : Article → Int} {p : Article → Bool} {c : Int}
    (H : ∀ x, p x = true → key x = c) {a : Article} (ha : p a = true) :
    ∀ m : List Article, (insertDescBy key a m).filter p = a :: m.filter p := by
  intro m
  induction m with
  | nil => simp [insertDescBy, List.filter_cons, ha]
  | cons b t ih =>
    rw [insertDescBy]
    by_cases hba : key b ≤ key a
    · rw [if_pos hba]
      simp [List.filter_cons, ha]
    · rw [if_neg hba]
      have hpb : p b = false := by
        cases hpb : p b with
        | false => rfl
        | true =>
          have := H b hpb
          have := H a ha
          omega
      rw [List.filter_cons, List.filter_cons]
      simp [hpb, ih]

theorem filter_insertDescBy_neg {key : Article → Int} {p : Article → Bool} {a : Article}
    (ha : p a = false) :
    ∀ m : List Article, (insertDescBy key a m).filter p = m.filter p := by
  intro m
  induction m with
  | nil => simp [insertDescBy, List.filter_cons, ha]
  | cons b t ih =>
    rw [insertDescBy]
    by_cases hba : key b ≤ key a
    · rw [if_pos hba]
      simp [List.filter_cons, ha]
    · rw [if_neg hba]
      rw [List.filter_cons, List.filter_cons]
      simp [ih]

theorem filter_pySortDescBy {key : Article → Int} {p : Article → Bool} (c : Int)
    (H : ∀ x, p x = true → key x = c) :
    ∀ l : List Article, (pySortDescBy key l).filter p = l.filter p := by
  intro l
  induction l with
  | nil => rfl
  | cons a t ih =>
    rw [pySortDescBy]
    cases ha : p a with
    | true => rw [filter_insertDescBy_pos H ha, ih, List.filter_cons, if_pos (by simp [ha])]
    | false => rw [filter_insertDescBy_neg ha, ih, List.filter_cons, if_neg (by simp [ha])]

theorem dedupByLink_sublist : ∀ (m : List Article) (seen : List String),
    (dedupByLink m seen).Sublist m := by
  intro m
  induction m with
  | nil => intro seen; exact List.Sublist.refl _
  | cons a t ih =>
    intro seen
    rw [dedupByLink]
    by_cases h : a.link ∈ seen
    · rw [if_pos h]
      exact (ih seen).trans (List.sublist_cons_self a t)
    · rw [if_neg h]
      exact (ih (a.link :: seen)).cons₂ a

theorem link_not_seen_of_mem_dedup : ∀ (m : List Article) (seen : List String) (a : Article),
    a ∈ dedupByLink m seen → a.link ∉ seen := by
  intro m
  induction m with
  | nil => intro seen a ha; simp [dedupByLink] at ha
  | cons c t ih =>
    intro seen a ha
    rw [dedupByLink] at ha
    by_cases h : c.link ∈ seen
    · rw [if_pos h] at ha
      exact ih seen a ha
    · rw [if_neg h] at ha
      rcases List.mem_cons.mp ha with rfl | ha'
      · exact h
      · intro hs
        exact ih _ a ha' (List.mem_cons_of_mem _ hs)

theorem dedup_links_nodup : ∀ (m : List Article) (seen : List String),
    ((dedupByLink m seen).map Article.link).Nodup := by
  intro m
  induction m with
  | nil => intro seen; simp [dedupByLink]
  | cons c t ih =>
    intro seen
    rw [dedupByLink]
    by_cases h : c.link ∈ seen
    · rw [if_pos h]
      exact ih seen
    · rw [if_neg h]
      rw [List.map_cons, List.nodup_cons]
      refine ⟨?_, ih (c.link :: seen)⟩
      intro hmem
      obtain ⟨b, hb, hbl⟩ := List.mem_map.mp hmem
      exact link_not_seen_of_mem_dedup _ _ b hb (by rw [hbl]; exact List.mem_cons_self _ _)

theorem mem_dedupByLink_iff : ∀ (m : List Article) (seen : List String) (a : Article),
    a ∈ dedupByLink m seen ↔
      ∃ pre post, m = pre ++ a :: post ∧ a.link ∉ seen ∧ ∀ b ∈ pre, b.link ≠ a.link := by
  intro m
  induction m with
  | nil =>
    intro seen a
    simp [dedupByLink]
  | cons c t ih =>
    intro seen a
    rw [dedupByLink]
    by_cases h : c.link ∈ seen
    · rw [if_pos h, ih seen a]
      constructor
      · rintro ⟨pre, post, ht, hns, hpre⟩
        refine ⟨c :: pre, post, by rw [ht]; rfl, hns, ?_⟩
        intro b hb
        rcases List.mem_cons.mp hb with rfl | hb'
        · intro he
          exact hns (he ▸ h)
        · exact hpre b hb'
      · rintro ⟨pre, post, heq, hns, hpre⟩
        cases pre with
        | nil =>
          simp only [List.nil_append, List.cons.injEq] at heq
          exact absurd (heq.1 ▸ h) hns
        | cons p pre' =>
          simp only [List.cons_append, List.cons.injEq] at heq
          exact ⟨pre', post, heq.2, hns, fun b hb => hpre b (List.mem_cons_of_mem p hb)⟩
    · rw [if_neg h, List.mem_cons]
      constructor
      · rintro (rfl | hmem)
        · exact ⟨[], t, rfl, h, by simp⟩
        · obtain ⟨pre, post, ht, hns, hpre⟩ := (ih _ a).mp hmem
          have hns' : a.link ≠ c.link ∧ a.link ∉ seen := by
            constructor
            · intro he
              exact hns (he ▸ List.mem_cons_self _ _)
            · intro hs
              exact hns (List.mem_cons_of_mem _ hs)
          refine ⟨c :: pre, post, by rw [ht]; rfl, hns'.2, ?_⟩
          intro b hb
          rcases List.mem_cons.mp hb with rfl | hb'
          · exact fun he => hns'.1 he.symm
          · exact hpre b hb'
      · rintro ⟨pre, post, heq, hns, hpre⟩
        cases pre with
        | nil =>
          simp only [List.nil_append, List.cons.injEq] at heq
          exact Or.inl heq.1.symm
        | cons p pre' =>
          simp only [List.cons_append, List.cons.injEq] at heq
          refine Or.inr ((ih _ a).mpr ⟨pre', post, heq.2, ?_, fun b hb =>
            hpre b (List.mem_cons_of_mem p hb)⟩)
          intro hs
          rcases List.mem_cons.mp hs with he | hs'
          · exact hpre c (heq.1 ▸ List.mem_cons_self p pre') (heq.1 ▸ he.symm) |>.elim
          · exact hns hs'

/-- Claim C1: in the feed build_feed produces, links are pairwise
distinct, and an article appears in the output exactly when it is the
first entry with its link in the sorted walk (so among input articles
sharing a link, only the first encountered in the sorted order
survives). -/
theorem c1_links_distinct_first_survives (l : List Article) :
    ((build_feed l).map Article.link).Nodup ∧
    ∀ a : Article, a ∈ build_feed l ↔
      ∃ pre post, pySortDescBy feedKey l = pre ++ a :: post ∧ ∀ b ∈ pre, b.link ≠ a.link := by
  refine ⟨dedup_links_nodup _ _, fun a => ?_⟩
  rw [build_feed, mem_dedupByLink_iff]
  simp

/-- Witness for the dedup claim on a concrete input with a duplicated
link: the output links of the two-source example are pairwise distinct. -/
theorem c1_witness :
    ((build_feed [artRecent, artAbsent, artRecent]).map Article.link).Nodup :=
  (c1_links_distinct_first_survives [artRecent, artAbsent, artRecent]).1

/-- Claim C2 counterexample: an article published 1960-01-01 (before the
Unix epoch) sorts after an article with an absent date, because
ensure_timezone substitutes 1970-01-01 UTC, not the minimal representable
timestamp; so an absent-date article appears before a present-date one. -/
theorem c2_counterexample :
    build_feed [art1960, artAbsent] = [artAbsent, art1960] ∧
    art1960.published.isSome = true ∧ artAbsent.published = none := by
  refine ⟨by decide, by decide, by decide⟩

/-- Claim C2 (amended): the feed is ordered by non-increasing effective
timestamp, where the effective timestamp of an absent published date is
the sentinel 1970-01-01 UTC (not the earliest representable time); hence
adjacent pairs with both dates present are ordered by non-increasing
published instant, absent-date articles appear after all articles
published after the epoch but before any published earlier, and the
absent-date articles retain their input order relative to each other. -/
theorem c2_order_amended (l : List Article) :
    (build_feed l).Pairwise (fun a b => feedKey b ≤ feedKey a) ∧
    ((build_feed l).filter (fun a => a.published.isNone)).Sublist
      (l.filter (fun a => a.published.isNone)) := by
  constructor
  · exact List.Pairwise.sublist (dedupByLink_sublist _ _) (pairwise_pySortDescBy feedKey l)
  · have h1 : ((build_feed l).filter (fun a => a.published.isNone)).Sublist
        ((pySortDescBy feedKey l).filter (fun a => a.published.isNone)) :=
      (dedupByLink_sublist _ _).filter _
    have h2 : (pySortDescBy feedKey l).filter (fun a => a.published.isNone) =
        l.filter (fun a => a.published.isNone) := by
      apply filter_pySortDescBy (epochSeconds ⟨1970, 1, 1, 0, 0, 0, some 0⟩)
      intro x hx
      rw [Option.isNone_iff_eq_none] at hx
      rw [feedKey, hx]
      rfl
    rw [h2] at h1
    exact h1

/-- Witness for the amended ordering claim on a concrete mixed input. -/
theorem c2_witness :
    (build_feed [art1960, artAbsent, artRecent]).Pairwise
      (fun a b => feedKey b ≤ feedKey a) :=
  (c2_order_amended [art1960, artAbsent, artRecent]).1

theorem perm_flatten_of_perm : ∀ {ls ls' : List (List Article)}, ls.Perm ls' →
    ls.flatten.Perm ls'.flatten := by
  intro ls ls' h
  induction h with
  | nil => exact List.Perm.refl _
  | cons x _ ih =>
    simp only [List.flatten_cons]
    exact ih.append_left x
  | swap x y t =>
    simp only [List.flatten_cons, ← List.append_assoc]
    exact (@List.perm_append_comm _ y x).append_right t.flatten
  | trans _ _ ih1 ih2 => exact ih1.trans ih2

theorem eq_of_perm_of_strict_desc (key : Article → Int) :
    ∀ l₁ l₂ : List Article, l₁.Perm l₂ →
      l₁.Pairwise (fun a b => key b < key a) → l₂.Pairwise (fun a b => key b < key a) →
      l₁ = l₂ := by
  intro l₁
  induction l₁ with
  | nil =>
    intro l₂ h _ _
    exact List.Perm.nil_eq h
  | cons a t ih =>
    intro l₂ h hp1 hp2
    cases l₂ with
    | nil => exact absurd (List.Perm.eq_nil h) (List.cons_ne_nil a t)
    | cons b t₂ =>
      have hab : a = b := by
        by_contra hne
        have ha2 : a ∈ b :: t₂ := h.subset (List.mem_cons_self a t)
        have hb1 : b ∈ a :: t := h.symm.subset (List.mem_cons_self b t₂)
        have ha2' : a ∈ t₂ := by
          rcases List.mem_cons.mp ha2 with h' | h'
          · exact absurd h' hne
          · exact h'
        have hb1' : b ∈ t := by
          rcases List.mem_cons.mp hb1 with h' | h'
          · exact absurd h'.symm hne
          · exact h'
        have h1 : key b < key a := (List.pairwise_cons.mp hp1).1 b hb1'
        have h2 : key a < key b := (List.pairwise_cons.mp hp2).1 a ha2'
        omega
      subst hab
      rw [ih t₂ h.cons_inv (List.pairwise_cons.mp hp1).2 (List.pairwise_cons.mp hp2).2]

theorem build_feed_perm_eq {l l' : List Article} (h : l.Perm l')
    (hnd : (l.map feedKey).Nodup) : build_feed l = build_feed l' := by
  have hperm : (pySortDescBy feedKey l).Perm (pySortDescBy feedKey l') :=
    ((pySortDescBy_perm feedKey l).trans h).trans (pySortDescBy_perm feedKey l').symm
  have hnd' : (l'.map feedKey).Nodup := (h.map feedKey).nodup_iff.mp hnd
  have hsymm : ∀ {x y : Article}, feedKey x ≠ feedKey y → feedKey y ≠ feedKey x :=
    fun hxy he => hxy he.symm
  have hne : l.Pairwise (fun a b => feedKey a ≠ feedKey b) := List.pairwise_map.mp hnd
  have hne' : l'.Pairwise (fun a b => feedKey a ≠ feedKey b) := List.pairwise_map.mp hnd'
  have hne1 : (pySortDescBy feedKey l).Pairwise (fun a b => feedKey a ≠ feedKey b) :=
    (List.Perm.pairwise_iff hsymm (pySortDescBy_perm feedKey l)).mpr hne
  have hne2 : (pySortDescBy feedKey l').Pairwise (fun a b => feedKey a ≠ feedKey b) :=
    (List.Perm.pairwise_iff hsymm (pySortDescBy_perm feedKey l')).mpr hne'
  have hstrict1 : (pySortDescBy feedKey l).Pairwise (fun a b => feedKey b < feedKey a) :=
    List.Pairwise.imp (fun hab => lt_of_le_of_ne hab.1 (fun he => hab.2 he.symm))
      ((pairwise_pySortDescBy feedKey l).and hne1)
  have hstrict2 : (pySortDescBy feedKey l').Pairwise (fun a b => feedKey b < feedKey a) :=
    List.Pairwise.imp (fun hab => lt_of_le_of_ne hab.1 (fun he => hab.2 he.symm))
      ((pairwise_pySortDescBy feedKey l').and hne2)
  rw [build_feed, build_feed, eq_of_perm_of_strict_desc feedKey _ _ hperm hstrict1 hstrict2]

/-- Claim C8 counterexample: two sources each contributing one undated
article (their effective timestamps tie at the sentinel); permuting the
source order permutes the output, because the stable sort keeps tied
articles in concatenation order. -/
theorem c8_counterexample :
    ([[artTieA], [artTieB]] : List (List Article)).Perm [[artTieB], [artTieA]] ∧
    build_feed ([[artTieA], [artTieB]] : List (List Article)).flatten ≠
      build_feed ([[artTieB], [artTieA]] : List (List Article)).flatten := by
  refine ⟨List.Perm.swap _ _ _, by decide⟩

/-- Claim C8 (amended): permuting the per-source lists does not change the
aggregated feed provided no two articles share an effective timestamp
(the sort key ensure_timezone(published)); with all keys distinct the
descending sort is unique, so the re-sort is order-insensitive. Ties are
resolved by concatenation order and are therefore order-sensitive, as the
counterexample shows. -/
theorem c8_perm_amended (ls ls' : List (List Article)) (hperm : ls.Perm ls')
    (hnd : (ls.flatten.map feedKey).Nodup) :
    build_feed ls.flatten = build_feed ls'.flatten :=
  build_feed_perm_eq (perm_flatten_of_perm hperm) hnd

/-- Witness for the amended permutation claim: two sources with distinct
effective timestamps produce the same feed in either order. -/
theorem c8_witness :
    (([[artRecent], [artAbsent]] : List (List Article)).Perm [[artAbsent], [artRecent]] ∧
      (([[artRecent], [artAbsent]] : List (List Article)).flatten.map feedKey).Nodup) ∧
    build_feed ([[artRecent], [artAbsent]] : List (List Article)).flatten =
      build_feed ([[artAbsent], [artRecent]] : List (List Article)).flatten :=
  ⟨⟨List.Perm.swap _ _ _, by decide⟩,
   c8_perm_amended _ _ (List.Perm.swap _ _ _) (by decide)⟩

theorem data_isEmpty_iff {s : String} : s.data.isEmpty = true ↔ s = "" := by
  cases s with
  | mk d =>
    simp only [List.isEmpty_iff]
    constructor
    · intro h
      exact congrArg String.mk h
    · intro h
      exact congrArg String.data h

theorem keepArticle_false_iff {a : Article} :
    keepArticle a = false ↔ (a.title = "" ∨ a.link = "") := by
  rw [keepArticle]
  simp only [ne_eq, ← data_isEmpty_iff]
  cases a.title.data.isEmpty <;> cases a.link.data.isEmpty <;> simp

theorem keepArticle_true_iff {a : Article} :
    keepArticle a = true ↔ (a.title ≠ "" ∧ a.link ≠ "") := by
  rw [keepArticle]
  simp only [ne_eq, ← data_isEmpty_iff]
  cases a.title.data.isEmpty <;> cases a.link.data.isEmpty <;> simp

/-- Claim C5: the validity gate of parse_journal discards an article
exactly when its resolved title or resolved link is empty (titles are
built by the stripping get_text, so an empty title is one that is empty
after trimming); every article the pipeline returns has a non-empty title
and link; and the gate never reads the summary, so an empty or missing
summary cannot cause a discard. -/
theorem c5_validity_gating (html : Html) (config : JournalConfig) :
    (∀ a : Article, keepArticle a = false ↔ (a.title = "" ∨ a.link = "")) ∧
    (∀ a ∈ parse_journal html config, a.title ≠ "" ∧ a.link ≠ "") ∧
    (∀ (a : Article) (s : String), keepArticle { a with summary := s } = keepArticle a) := by
  refine ⟨fun a => keepArticle_false_iff, ?_, fun a s => rfl⟩
  intro a ha
  rw [parse_journal] at ha
  rcases hP : PARSER_MAP config.name with _ | p
  · rw [hP] at ha
    simp at ha
  · rw [hP] at ha
    exact keepArticle_true_iff.mp (List.mem_filter.mp ha).2

/-- Witness for the validity-gate claim on the concrete Cell page. -/
theorem c5_witness :
    articleC3 ∈ parse_journal htmlC3 cellConfig ∧
    articleC3.title ≠ "" ∧ articleC3.link ≠ "" :=
  ⟨by decide, (c5_validity_gating htmlC3 cellConfig).2.1 articleC3 (by decide)⟩

/-- Claim C10: a source descriptor whose name has no registered parser
makes parse_journal return the empty list (the total model returns a
value, mirroring that the Python code raises nothing on this path). -/
theorem c10_unknown_source_empty (html : Html) (config : JournalConfig)
    (h1 : config.name ≠ "Cell") (h2 : config.name ≠ "Nature") (h3 : config.name ≠ "Science") :
    parse_journal html config = [] := by
  rw [parse_journal, PARSER_MAP, if_neg h1, if_neg h2, if_neg h3]

/-- Witness for the unknown-source claim with the name Foo. -/
theorem c10_witness :
    (("Foo" : String) ≠ "Cell" ∧ ("Foo" : String) ≠ "Nature" ∧ ("Foo" : String) ≠ "Science") ∧
    parse_journal ⟨[], [], []⟩ ⟨"Foo", "", "", [], []⟩ = [] :=
  ⟨⟨by decide, by decide, by decide⟩,
   c10_unknown_source_empty ⟨[], [], []⟩ ⟨"Foo", "", "", [], []⟩ (by decide) (by decide)
     (by decide)⟩

/-- Claim C3 (code bug): the include and exclude term lists of
JOURNAL_CONFIGS are never consulted by parse_journal, which only gates on
non-empty title and link; the candidate whose projection is the spec's
first classifier scenario (its text contains the exclude term news) is
kept by the pipeline although the spec's decision rule rejects it, while
the rule itself, modelled from the spec, evaluates both scenarios as the
spec states. -/
theorem c3_classifier_missing :
    parse_journal htmlC3 cellConfig = [articleC3] ∧
    containsSub "news".data articleC3.title.data = true ∧
    classify_spec cellConfig.include_terms cellConfig.exclude_terms
      "research article genomics news roundup" = false ∧
    classify_spec cellConfig.include_terms cellConfig.exclude_terms
      "original research article on gene editing" = true := by
  refine ⟨by decide, by decide, by decide, by decide⟩

/-- Claim C7: a container object whose graph key holds a list of two
entities and which has no main-entity key contributes exactly three
candidates: the two graph entities plus the container itself. -/
theorem c7_graph_block_three_candidates (e1 e2 : Json) (fs : List (String × Json))
    (hg : lookupKey fs "@graph" = some (Json.arr [e1, e2]))
    (hm : lookupKey fs "mainEntity" = none) :
    collectEntities (Json.obj fs) = [e1, e2, Json.obj fs] := by
  rw [collectEntities, hg, hm]
  rfl

/-- Witness for the embedded-data claim on a concrete two-entity block. -/
theorem c7_witness :
    (lookupKey [("@graph", Json.arr [Json.str "a", Json.str "b"])] "@graph" =
        some (Json.arr [Json.str "a", Json.str "b"]) ∧
      lookupKey [("@graph", Json.arr [Json.str "a", Json.str "b"])] "mainEntity" = none) ∧
    collectEntities (Json.obj [("@graph", Json.arr [Json.str "a", Json.str "b"])]) =
      [Json.str "a", Json.str "b", Json.obj [("@graph", Json.arr [Json.str "a", Json.str "b"])]] :=
  ⟨⟨rfl, rfl⟩, c7_graph_block_three_candidates _ _ _ rfl rfl⟩

theorem dateFromTimeTag_is_parse_date : ∀ o : Option Tag,
    ∃ v, dateFromTimeTag o = parse_date v := by
  intro o
  cases o with
  | none => exact ⟨some (text_or_empty none), rfl⟩
  | some t =>
    rw [dateFromTimeTag]
    cases h2 : tagGet t "datetime" with
    | none => exact ⟨some (text_or_empty (some t)), rfl⟩
    | some dt =>
      by_cases h : dt.data = []
      · exact ⟨some (text_or_empty (some t)), by simp [h]⟩
      · exact ⟨some dt, by simp [h]⟩

theorem natureDate_is_parse_date (card : NatureCard) :
    ∃ v, natureDate card = parse_date v :=
  dateFromTimeTag_is_parse_date card.timeTag

theorem scienceDate_is_parse_date (card : ScienceCard) :
    ∃ v, scienceDate card = parse_date v :=
  dateFromTimeTag_is_parse_date card.timeTag

/-- Claim C9: whenever parse_date returns a present result, the returned
datetime carries an explicit timezone, and hence every article the
extraction pipeline emits has a published field that is absent or
timezone-aware, so the sort key never compares naive with aware values. -/
theorem c9_published_always_aware :
    (∀ (v : Option String) (t : PyDateTime), parse_date v = some t → t.tz.isSome = true) ∧
    (∀ (html : Html) (config : JournalConfig) (a : Article) (t : PyDateTime),
      a ∈ parse_journal html config → a.published = some t → t.tz.isSome = true) := by
  have h1 : ∀ (v : Option String) (t : PyDateTime), parse_date v = some t →
      t.tz.isSome = true := by
    intro v t h
    cases v with
    | none => simp [parse_date] at h
    | some s =>
      rw [parse_date] at h
      by_cases he : s.data.isEmpty = true
      · rw [if_pos he] at h
        exact absurd h (by simp)
      · rw [if_neg he] at h
        rw [parseDateChars] at h
        cases hf : fromisoChars (replaceZ (discardLabel (pyStrip s.data))) with
        | some p =>
          rw [hf] at h
          simp only [Option.some.injEq] at h
          subst h
          by_cases hp : p.tz.isSome = true
          · rw [if_pos hp]
            exact hp
          · rw [if_neg hp]
            rfl
        | none =>
          rw [hf, tryFormats] at h
          cases hb : strptimeBdY (discardLabel (pyStrip s.data)) with
          | some u =>
            rw [hb] at h
            simp only [Option.some.injEq] at h
            rw [← h]
            rfl
          | none =>
            rw [hb] at h
            cases hb2 : strptimeDbY (discardLabel (pyStrip s.data)) with
            | some u =>
              rw [hb2] at h
              simp only [Option.some.injEq] at h
              rw [← h]
              rfl
            | none =>
              rw [hb2] at h
              cases hb3 : strptimeYmd (discardLabel (pyStrip s.data)) with
              | some u =>
                rw [hb3] at h
                simp only [Option.some.injEq] at h
                rw [← h]
                rfl
              | none =>
                rw [hb3] at h
                cases hb4 : strptimeYmdHMS (discardLabel (pyStrip s.data)) with
                | some u =>
                  rw [hb4] at h
                  simp only [Option.some.injEq] at h
                  rw [← h]
                  rfl
                | none =>
                  rw [hb4] at h
                  exact absurd h (by simp)
  refine ⟨h1, ?_⟩
  intro html config a t ha hpub
  rw [parse_journal] at ha
  rcases hP : PARSER_MAP config.name with _ | p
  · rw [hP] at ha
    simp at ha
  · rw [hP] at ha
    have ha' : a ∈ p html config := (List.mem_filter.mp ha).1
    have hp3 : p = parse_cell ∨ p = parse_nature ∨ p = parse_science := by
      rw [PARSER_MAP] at hP
      by_cases e1 : config.name = "Cell"
      · rw [if_pos e1] at hP
        exact Or.inl (Option.some.inj hP).symm
      · rw [if_neg e1] at hP
        by_cases e2 : config.name = "Nature"
        · rw [if_pos e2] at hP
          exact Or.inr (Or.inl (Option.some.inj hP).symm)
        · rw [if_neg e2] at hP
          by_cases e3 : config.name = "Science"
          · rw [if_pos e3] at hP
            exact Or.inr (Or.inr (Option.some.inj hP).symm)
          · rw [if_neg e3] at hP
            exact absurd hP (by simp)
    rcases hp3 with rfl | rfl | rfl
    · rw [parse_cell] at ha'
      obtain ⟨card, _, he⟩ := List.mem_filterMap.mp ha'
      cases hct : card.titleTag with
      | none =>
        rw [hct] at he
        exact absurd he (by simp)
      | some tt =>
        rw [hct] at he
        simp only [Option.some.injEq] at he
        subst he
        exact h1 (some (text_or_empty card.dateTag)) t hpub
    · rw [parse_nature] at ha'
      obtain ⟨card, _, he⟩ := List.mem_filterMap.mp ha'
      cases hct : card.titleTag with
      | none =>
        rw [hct] at he
        exact absurd he (by simp)
      | some tt =>
        rw [hct] at he
        simp only [Option.some.injEq] at he
        subst he
        obtain ⟨v, hv⟩ := natureDate_is_parse_date card
        have hpub' : parse_date v = some t := by
          rw [← hv]
          exact hpub
        exact h1 v t hpub'
    · rw [parse_science] at ha'
      obtain ⟨card, _, he⟩ := List.mem_filterMap.mp ha'
      cases hct : choose_title card with
      | none =>
        rw [hct] at he
        exact absurd he (by simp)
      | some tt =>
        rw [hct] at he
        simp only [Option.some.injEq] at he
        subst he
        obtain ⟨v, hv⟩ := scienceDate_is_parse_date card
        have hpub' : parse_date v = some t := by
          rw [← hv]
          exact hpub
        exact h1 v t hpub'

/-- Witness for the awareness claim: a concrete normalizer result and a
concrete pipeline article, both timezone-aware. -/
theorem c9_witness :
    (parse_date (some "2024-03-03") = some dtC9 ∧ dtC9.tz.isSome = true) ∧
    (articleC9 ∈ parse_journal htmlC9 cellConfig ∧ articleC9.published = some dtC9 ∧
      dtC9.tz.isSome = true) :=
  ⟨⟨by decide, c9_published_always_aware.1 (some "2024-03-03") dtC9 (by decide)⟩,
   ⟨by decide, by decide,
    c9_published_always_aware.2 htmlC9 cellConfig articleC9 dtC9 (by decide) (by decide)⟩⟩
